import Mathlib

/-!
The package goller: one receive / dispatch / delete cycle of an SQS poller

A shallow embedding of `goller.go`.  Every call that leaves the package (the
wrapped `log.Logger`, the `sqsProvider` of the configuration, the registered
`Handler`) is recorded as an `Event` in a trace, so that statements about
"which calls are made, in which order, with which arguments" become statements
about lists.

Conventions of the embedding:

* Go `string` is `String`; the two phrases searched for are ASCII, so the
  byte-wise search of `strings.Contains` and the character-wise search here
  agree on every valid UTF-8 string.
* Go `*string` is `Option String`, `int64` is `Int` (no arithmetic is done).
* `interface{}` values are `GoValue`; a variadic parameter `v ...interface{}`
  is the slice `v : List GoValue` inside the function.
* The ways a Go call can fail to return are explicit: `Halt.panic` for
  `panic(...)`, `Halt.exit` for `os.Exit` as performed by `log.Logger.Fatal`.
* External collaborators are assumed to return: a handler or provider that
  itself panics or loops is outside the model, as is a nil logger and a nil
  entry in `Messages`.
-/

namespace Goller

/-! ## Values and external types -/

/-- A Go `error` value, identified with its message. -/
structure GoError where
  msg : String
deriving DecidableEq, Repr

/-- Values that travel through `interface{}` parameters. -/
inductive GoValue where
  | str (s : String)
  | int64 (n : Int)
  | err (e : GoError)
  | slice (vs : List GoValue)
deriving Repr

/-- The type `*session.Session`, an opaque handle. -/
structure Session where
  id : Nat
deriving DecidableEq, Repr

/-- The type `*sqs.SQS`, an opaque handle. -/
structure SQS where
  id : Nat
deriving DecidableEq, Repr

/-- The struct `sqs.ReceiveMessageInput`, the four fields set by `Poll`. -/
structure ReceiveMessageInput where
  QueueUrl : String
  WaitTimeSeconds : Int
  VisibilityTimeout : Int
  MaxNumberOfMessages : Int
deriving DecidableEq, Repr

/-- The struct `sqs.DeleteMessageInput`. -/
structure DeleteMessageInput where
  QueueUrl : String
  ReceiptHandle : Option String
deriving DecidableEq, Repr

/-- The struct `sqs.Message`, the two fields read by `Poll`. -/
structure Message where
  Body : Option String
  ReceiptHandle : Option String
deriving DecidableEq, Repr

/-- The struct `sqs.ReceiveMessageOutput`. -/
structure ReceiveMessageOutput where
  Messages : List Message
deriving DecidableEq, Repr

/-! ## Trace of external calls -/

/-- One call that leaves the package. -/
inductive Event where
  /-- Call `(*log.Logger).Printf(format, args...)` on the wrapped logger. -/
  | logPrintf (format : String) (args : List GoValue)
  /-- Call `(*log.Logger).Fatal(args...)` on the wrapped logger. -/
  | logFatal (args : List GoValue)
  /-- Call `provider.getSession(region)`. -/
  | getSession (region : String)
  /-- Call `provider.getSessionWithCredentials(region, id, secret)`. -/
  | getSessionWithCredentials (region id secret : String)
  /-- Call `provider.receiveMessages(params, client)`. -/
  | receiveMessages (params : ReceiveMessageInput) (client : SQS)
  /-- Call `provider.deleteMessage(params, client)`. -/
  | deleteMessage (params : DeleteMessageInput) (client : SQS)
  /-- Call `handler.Handle(body)`. -/
  | handle (body : Option String)
deriving Repr

/-- How a call stops without returning. -/
inductive Halt where
  | panic (msg : String)
  | exit (code : Nat)
deriving DecidableEq, Repr

/-- The state threaded through the program: the calls made so far (oldest
first) and the state `σ` owned by the embedding application, which only the
handler touches. -/
structure World (σ : Type) where
  trace : List Event
  user : σ

/-- Append one call to the trace. -/
def World.emit {σ : Type} (w : World σ) (e : Event) : World σ :=
  { w with trace := w.trace ++ [e] }

/-- A world in which nothing has been called yet. -/
def World.start {σ : Type} (u : σ) : World σ :=
  { trace := [], user := u }

/-! ## Projections of a trace -/

/-- The receive requests of a trace, in order. -/
def receives (t : List Event) : List ReceiveMessageInput :=
  t.filterMap fun e => match e with
    | Event.receiveMessages p _ => some p
    | _ => none

/-- The delete requests of a trace, in order. -/
def deletes (t : List Event) : List DeleteMessageInput :=
  t.filterMap fun e => match e with
    | Event.deleteMessage p _ => some p
    | _ => none

/-- The bodies the handler was invoked with, in order. -/
def handled (t : List Event) : List (Option String) :=
  t.filterMap fun e => match e with
    | Event.handle b => some b
    | _ => none

/-- The calls that reached Printf of the wrapped logger, in order. -/
def printfs (t : List Event) : List (String × List GoValue) :=
  t.filterMap fun e => match e with
    | Event.logPrintf f a => some (f, a)
    | _ => none

/-- The calls that reached Fatal of the wrapped logger, in order. -/
def fatals (t : List Event) : List (List GoValue) :=
  t.filterMap fun e => match e with
    | Event.logFatal a => some a
    | _ => none

/-- The session requests of a trace, in order: each with its region, and with
the key pair when static credentials were used. -/
def sessions (t : List Event) : List (String × Option (String × String)) :=
  t.filterMap fun e => match e with
    | Event.getSession r => some (r, none)
    | Event.getSessionWithCredentials r i k => some (r, some (i, k))
    | _ => none

/-! ## `strings.Contains` -/

/-- Does `sub` occur in `l` as a contiguous block? -/
def hasInfix (sub : List Char) : List Char → Bool
  | [] => sub.isEmpty
  | c :: t => sub.isPrefixOf (c :: t) || hasInfix sub t

/-- The function `strings.Contains(s, substr)`: reports whether `substr` is within `s`. -/
def strings.Contains (s substr : String) : Bool :=
  hasInfix substr.data s.data

/-! ## The package -/

/-- Modelled from the spec: the sqsProvider interface is declared outside
`goller.go`; these are the methods `goller.go` calls on it, with the argument
lists used there and Go's `(result, err)` returns as pairs.  A provider may be
stateful, so the answer to a delete request may depend on how many delete
requests the run has already issued (the first argument of `deleteMessage`). -/
structure sqsProvider where
  getSession : String → Option Session × Option GoError
  getSessionWithCredentials : String → String → String → Option Session × Option GoError
  getQueue : Option Session → SQS
  receiveMessages : ReceiveMessageInput → SQS → Option ReceiveMessageOutput × Option GoError
  deleteMessage : Nat → DeleteMessageInput → SQS → Option GoError

/-- Modelled from the spec: the Configuration struct is declared outside
`goller.go`; these are the fields `goller.go` reads. -/
structure Configuration where
  AccessKeyID : String
  SecretKey : String
  Region : String
  WaitTimeSeconds : Int
  VisibilityTimeout : Int
  MaxNumberOfMessages : Int
  QueueURL : String
  provider : sqsProvider

/-- Modelled from the spec: the Handler interface is declared outside
`goller.go`; it is the capability "handle(body) -> void", which returns
nothing and acts only on the application's own state. -/
structure Handler (σ : Type) where
  Handle : Option String → σ → σ

/-- The standard library's `*log.Logger`, an opaque handle; what it is asked to
write is recorded in the trace. -/
structure Logger where
  id : Nat
deriving DecidableEq, Repr

/-- The struct CustomLogger, wrapping the logger. -/
structure CustomLogger where
  logger : Logger
deriving DecidableEq, Repr

/-- The struct SqsQueue; `handler` is `none` for a nil interface value. -/
structure SqsQueue (σ : Type) where
  client : SQS
  logger : CustomLogger
  config : Configuration
  handler : Option (Handler σ)

/-- Method `(*CustomLogger).Printf`: returns early on the two polling phrases,
otherwise calls `l.logger.Printf(format, v)`, where the slice `v` is passed as
one argument (the call is not written `v...`). -/
def CustomLogger.Printf {σ : Type} (_l : CustomLogger) (format : String)
    (v : List GoValue) (w : World σ) : World σ :=
  if strings.Contains format "Finished long polling" || strings.Contains format "Long polling" then
    w
  else
    w.emit (Event.logPrintf format [GoValue.slice v])

/-- Method `(*CustomLogger).Fatal`: calls `l.logger.Fatal(v)`, which writes and
then calls `os.Exit(1)`, so the call never returns. -/
def CustomLogger.Fatal {σ : Type} (_l : CustomLogger) (v : List GoValue)
    (w : World σ) : Halt × World σ :=
  (Halt.exit 1, w.emit (Event.logFatal [GoValue.slice v]))

/-- Modelled from the spec: checkErr is defined outside `goller.go`.  The
spec's rule for a failed session, receive or delete is "log it via the fatal
path (process terminates)"; with no error it does nothing. -/
def checkErr {σ : Type} (err : Option GoError) (l : CustomLogger)
    (w : World σ) : Except Halt Unit × World σ :=
  match err with
  | none => (Except.ok (), w)
  | some e =>
    let r := l.Fatal [GoValue.err e] w
    (Except.error r.1, r.2)

/-- Method `(*SqsQueue).deleteMessage`. -/
def SqsQueue.deleteMessage {σ : Type} (s : SqsQueue σ) (receipt : Option String)
    (w : World σ) : Except Halt Unit × World σ :=
  let params : DeleteMessageInput :=
    { QueueUrl := s.config.QueueURL, ReceiptHandle := receipt }
  let err := s.config.provider.deleteMessage (deletes w.trace).length params s.client
  let w := w.emit (Event.deleteMessage params s.client)
  checkErr err s.logger w

/-- The loop `for _, v := range messages` of Poll, for the registered
handler `h`. -/
def SqsQueue.pollLoop {σ : Type} (s : SqsQueue σ) (h : Handler σ) :
    List Message → World σ → Except Halt Unit × World σ
  | [], w => (Except.ok (), w)
  | v :: rest, w =>
    let receipt := v.ReceiptHandle
    let w := { w.emit (Event.handle v.Body) with user := h.Handle v.Body w.user }
    match s.deleteMessage receipt w with
    | (Except.error e, w) => (Except.error e, w)
    | (Except.ok (), w) => s.pollLoop h rest w

/-- Method `(*SqsQueue).Poll`. -/
def SqsQueue.Poll {σ : Type} (s : SqsQueue σ) (w : World σ) :
    Except Halt Unit × World σ :=
  match s.handler with
  | none => (Except.error (Halt.panic "A message handler needs to be registered first!"), w)
  | some h =>
    let w := s.logger.Printf "test long poll %s" [GoValue.str "test"] w
    let w := s.logger.Printf "Long polling on %s\n" [GoValue.str s.config.QueueURL] w
    let params : ReceiveMessageInput :=
      { QueueUrl := s.config.QueueURL
        WaitTimeSeconds := s.config.WaitTimeSeconds
        VisibilityTimeout := s.config.VisibilityTimeout
        MaxNumberOfMessages := s.config.MaxNumberOfMessages }
    let (result, err) := s.config.provider.receiveMessages params s.client
    let w := w.emit (Event.receiveMessages params s.client)
    match checkErr err s.logger w with
    | (Except.error e, w) => (Except.error e, w)
    | (Except.ok (), w) =>
      match result with
      | none => (Except.error (Halt.panic "invalid memory address or nil pointer dereference"), w)
      | some result =>
        let messages := result.Messages
        match s.pollLoop h messages w with
        | (Except.error e, w) => (Except.error e, w)
        | (Except.ok (), w) =>
          let w := s.logger.Printf "Finished long polling after %d seconds"
            [GoValue.int64 s.config.WaitTimeSeconds] w
          (Except.ok (), w)

/-- Function getSession: static credentials when both are set, otherwise the
provider chain. -/
def getSession {σ : Type} (c : Configuration) (l : CustomLogger) (w : World σ) :
    Except Halt (Option Session) × World σ :=
  let r : (Option Session × Option GoError) × World σ :=
    if c.AccessKeyID ≠ "" ∧ c.SecretKey ≠ "" then
      (c.provider.getSessionWithCredentials c.Region c.AccessKeyID c.SecretKey,
        w.emit (Event.getSessionWithCredentials c.Region c.AccessKeyID c.SecretKey))
    else
      (c.provider.getSession c.Region, w.emit (Event.getSession c.Region))
  let sess := r.1.1
  let err := r.1.2
  match checkErr err l r.2 with
  | (Except.error e, w) => (Except.error e, w)
  | (Except.ok (), w) => (Except.ok sess, w)


/-! ## Vocabulary of the statements -/

/-- The delete request Poll builds for a message. -/
def SqsQueue.deleteParams {σ : Type} (s : SqsQueue σ) (m : Message) : DeleteMessageInput :=
  { QueueUrl := s.config.QueueURL, ReceiptHandle := m.ReceiptHandle }

/-- The receive request Poll builds. -/
def SqsQueue.receiveParams {σ : Type} (s : SqsQueue σ) : ReceiveMessageInput :=
  { QueueUrl := s.config.QueueURL
    WaitTimeSeconds := s.config.WaitTimeSeconds
    VisibilityTimeout := s.config.VisibilityTimeout
    MaxNumberOfMessages := s.config.MaxNumberOfMessages }

/-- The calls of a fully dispatched batch: for each message its handler call
followed by its delete request. -/
def SqsQueue.dispatched {σ : Type} (s : SqsQueue σ) : List Message → List Event
  | [] => []
  | m :: ms =>
    Event.handle m.Body :: Event.deleteMessage (s.deleteParams m) s.client :: s.dispatched ms

/-- The answer of the provider to the delete request for the `i`-th message of
a batch (counting from 0), when the poll starts in world `w`; `none` is
success, also reported beyond the end of the batch. -/
def SqsQueue.deleteAnswer {σ : Type} (s : SqsQueue σ) (w : World σ)
    (msgs : List Message) (i : Nat) : Option GoError :=
  match msgs.get? i with
  | none => none
  | some m =>
    s.config.provider.deleteMessage ((deletes w.trace).length + i) (s.deleteParams m) s.client

/-- The application state after the handler has seen a batch. -/
def Handler.runAll {σ : Type} (h : Handler σ) (msgs : List Message) (u : σ) : σ :=
  msgs.foldl (fun u m => h.Handle m.Body u) u

/-- The handler and delete calls of a trace, in order, all other calls
dropped. -/
def calls (t : List Event) : List Event :=
  t.filter fun e => match e with
    | Event.handle _ => true
    | Event.deleteMessage _ _ => true
    | _ => false

/-! ## Concrete scenarios -/

/-- The batch of the end-to-end scenario: bodies A, B with receipts r1, r2. -/
def scenarioBatch : List Message :=
  [{ Body := some "A", ReceiptHandle := some "r1" },
   { Body := some "B", ReceiptHandle := some "r2" }]

/-- A provider whose receive answers `recv` and whose delete fails exactly at
the request numbers (counting from 0) listed in `failAt`. -/
def scenarioProvider (recv : Option ReceiveMessageOutput × Option GoError)
    (failAt : List Nat) : sqsProvider where
  getSession := fun _ => (some { id := 0 }, none)
  getSessionWithCredentials := fun _ _ _ => (some { id := 1 }, none)
  getQueue := fun _ => { id := 7 }
  receiveMessages := fun _ _ => recv
  deleteMessage := fun n _ _ => if n ∈ failAt then some { msg := "delete failed" } else none

/-- The configuration of the end-to-end scenario, with the given key pair. -/
def scenarioConfig (id secret : String) (p : sqsProvider) : Configuration where
  AccessKeyID := id
  SecretKey := secret
  Region := "eu-west-1"
  WaitTimeSeconds := 10
  VisibilityTimeout := 0
  MaxNumberOfMessages := 2
  QueueURL := "q1"
  provider := p

/-- A handler that appends each body it is given to the application state. -/
def recorder : Handler (List (Option String)) where
  Handle := fun b u => u ++ [b]

/-- A poller over the scenario configuration. -/
def scenarioQueue (p : sqsProvider) (h : Option (Handler (List (Option String)))) :
    SqsQueue (List (Option String)) where
  client := { id := 7 }
  logger := { logger := { id := 0 } }
  config := scenarioConfig "" "" p
  handler := h

/-- The scenario in which receive returns the batch and every delete succeeds. -/
def happyQueue : SqsQueue (List (Option String)) :=
  scenarioQueue (scenarioProvider (some { Messages := scenarioBatch }, none) []) (some recorder)

/-- The scenario in which receive returns the batch and the first delete fails. -/
def firstDeleteFails : SqsQueue (List (Option String)) :=
  scenarioQueue (scenarioProvider (some { Messages := scenarioBatch }, none) [0]) (some recorder)

/-- The scenario in which receive returns the batch and the second delete fails. -/
def secondDeleteFails : SqsQueue (List (Option String)) :=
  scenarioQueue (scenarioProvider (some { Messages := scenarioBatch }, none) [1]) (some recorder)

/-- The scenario in which receive fails. -/
def receiveFails : SqsQueue (List (Option String)) :=
  scenarioQueue (scenarioProvider (none, some { msg := "receive failed" }) []) (some recorder)

/-- The scenario of a poller without a handler. -/
def noHandler : SqsQueue (List (Option String)) :=
  scenarioQueue (scenarioProvider (some { Messages := scenarioBatch }, none) []) none

/-! ## Auxiliary facts -/

theorem hasInfix_iff (sub l : List Char) : hasInfix sub l = true ↔ sub <:+: l := by
  induction l with
  | nil => simp [hasInfix, List.isEmpty_iff]
  | cons c t ih =>
    simp only [hasInfix, Bool.or_eq_true, ih, List.infix_cons_iff, List.isPrefixOf_iff_prefix]

theorem contains_iff (s sub : String) :
    strings.Contains s sub = true ↔ sub.data <:+: s.data := by
  simp [strings.Contains, hasInfix_iff]

@[simp] theorem deletes_append (a b : List Event) : deletes (a ++ b) = deletes a ++ deletes b := by
  simp [deletes]

@[simp] theorem handled_append (a b : List Event) : handled (a ++ b) = handled a ++ handled b := by
  simp [handled]

@[simp] theorem receives_append (a b : List Event) :
    receives (a ++ b) = receives a ++ receives b := by
  simp [receives]

@[simp] theorem printfs_append (a b : List Event) : printfs (a ++ b) = printfs a ++ printfs b := by
  simp [printfs]

@[simp] theorem fatals_append (a b : List Event) : fatals (a ++ b) = fatals a ++ fatals b := by
  simp [fatals]

@[simp] theorem sessions_append (a b : List Event) :
    sessions (a ++ b) = sessions a ++ sessions b := by
  simp [sessions]

@[simp] theorem calls_append (a b : List Event) : calls (a ++ b) = calls a ++ calls b := by
  simp [calls]

theorem calls_dispatched {σ : Type} (s : SqsQueue σ) (msgs : List Message) :
    calls (s.dispatched msgs) = s.dispatched msgs := by
  induction msgs with
  | nil => rfl
  | cons m ms ih =>
    simp only [SqsQueue.dispatched]
    conv => rhs; rw [← ih]
    simp [calls]

theorem handled_dispatched {σ : Type} (s : SqsQueue σ) (msgs : List Message) :
    handled (s.dispatched msgs) = msgs.map (fun m => m.Body) := by
  induction msgs with
  | nil => rfl
  | cons m ms ih =>
    simp only [SqsQueue.dispatched, List.map_cons]
    rw [← ih]
    simp [handled]

theorem deletes_dispatched {σ : Type} (s : SqsQueue σ) (msgs : List Message) :
    deletes (s.dispatched msgs) = msgs.map s.deleteParams := by
  induction msgs with
  | nil => rfl
  | cons m ms ih =>
    simp only [SqsQueue.dispatched, List.map_cons]
    rw [← ih]
    simp [deletes]

theorem receives_dispatched {σ : Type} (s : SqsQueue σ) (msgs : List Message) :
    receives (s.dispatched msgs) = [] := by
  induction msgs with
  | nil => rfl
  | cons m ms ih =>
    simp only [SqsQueue.dispatched]
    rw [← ih]
    simp [receives]

theorem printfs_dispatched {σ : Type} (s : SqsQueue σ) (msgs : List Message) :
    printfs (s.dispatched msgs) = [] := by
  induction msgs with
  | nil => rfl
  | cons m ms ih =>
    simp only [SqsQueue.dispatched]
    rw [← ih]
    simp [printfs]

theorem pollLoop_ok {σ : Type} (s : SqsQueue σ) (h : Handler σ) (msgs : List Message) :
    ∀ w : World σ, (∀ i, i < msgs.length → s.deleteAnswer w msgs i = none) →
      s.pollLoop h msgs w =
        (Except.ok (), { trace := w.trace ++ s.dispatched msgs, user := h.runAll msgs w.user }) := by
  induction msgs with
  | nil => intro w _; simp [SqsQueue.pollLoop, SqsQueue.dispatched, Handler.runAll]
  | cons m ms ih =>
    intro w hok
    have h0 := hok 0 (by simp)
    simp only [SqsQueue.deleteAnswer, List.get?_cons_zero, Nat.add_zero] at h0
    have hstep : s.deleteMessage m.ReceiptHandle
        { w.emit (Event.handle m.Body) with user := h.Handle m.Body w.user } =
        (Except.ok (),
          { trace := w.trace ++
              [Event.handle m.Body, Event.deleteMessage (s.deleteParams m) s.client]
            user := h.Handle m.Body w.user }) := by
      simp [SqsQueue.deleteMessage, World.emit, deletes, SqsQueue.deleteParams] at h0 ⊢
      simp [h0, checkErr]
    simp only [SqsQueue.pollLoop, hstep]
    rw [ih]
    · simp [SqsQueue.dispatched, Handler.runAll]
    · intro i hi
      have := hok (i + 1) (by simpa using hi)
      simp only [SqsQueue.deleteAnswer, List.get?_cons_succ] at this ⊢
      cases hm : ms.get? i with
      | none => rfl
      | some m' =>
        rw [hm] at this
        simp only [] at this ⊢
        rw [← this]
        congr 1
        simp [deletes]
        omega


theorem deleteAnswer_congr {σ : Type} (s : SqsQueue σ) (w w' : World σ)
    (hw : (deletes w'.trace).length = (deletes w.trace).length) (msgs : List Message) (i : Nat) :
    s.deleteAnswer w' msgs i = s.deleteAnswer w msgs i := by
  simp only [SqsQueue.deleteAnswer, hw]

theorem deleteAnswer_succ {σ : Type} (s : SqsQueue σ) (w w' : World σ)
    (hw : (deletes w'.trace).length = (deletes w.trace).length + 1)
    (m : Message) (ms : List Message) (i : Nat) :
    s.deleteAnswer w (m :: ms) (i + 1) = s.deleteAnswer w' ms i := by
  simp only [SqsQueue.deleteAnswer, List.get?_cons_succ, hw]
  cases ms.get? i with
  | none => rfl
  | some m' =>
    have e : (deletes w.trace).length + (i + 1) = (deletes w.trace).length + 1 + i := by omega
    simp only [e]

theorem deleteMessage_ok {σ : Type} (s : SqsQueue σ) (m : Message) (w : World σ)
    (hd : s.config.provider.deleteMessage (deletes w.trace).length (s.deleteParams m) s.client
      = none) :
    s.deleteMessage m.ReceiptHandle w =
      (Except.ok (), w.emit (Event.deleteMessage (s.deleteParams m) s.client)) := by
  simp only [SqsQueue.deleteParams] at hd
  simp [SqsQueue.deleteMessage, SqsQueue.deleteParams, hd, checkErr]

theorem deleteMessage_fail {σ : Type} (s : SqsQueue σ) (m : Message) (w : World σ) (e : GoError)
    (hd : s.config.provider.deleteMessage (deletes w.trace).length (s.deleteParams m) s.client
      = some e) :
    s.deleteMessage m.ReceiptHandle w =
      (Except.error (Halt.exit 1),
        (w.emit (Event.deleteMessage (s.deleteParams m) s.client)).emit
          (Event.logFatal [GoValue.slice [GoValue.err e]])) := by
  simp only [SqsQueue.deleteParams] at hd
  simp [SqsQueue.deleteMessage, SqsQueue.deleteParams, hd, checkErr, CustomLogger.Fatal]

theorem pollLoop_fail {σ : Type} (s : SqsQueue σ) (h : Handler σ) (e : GoError)
    (msgs : List Message) :
    ∀ (k : Nat) (w : World σ), k < msgs.length →
      (∀ i, i < k → s.deleteAnswer w msgs i = none) →
      s.deleteAnswer w msgs k = some e →
      s.pollLoop h msgs w =
        (Except.error (Halt.exit 1),
          { trace := w.trace ++ s.dispatched (msgs.take (k + 1)) ++
              [Event.logFatal [GoValue.slice [GoValue.err e]]]
            user := h.runAll (msgs.take (k + 1)) w.user }) := by
  induction msgs with
  | nil => intro k w hk; simp at hk
  | cons m ms ih =>
    intro k w hk hbefore hat
    cases k with
    | zero =>
      simp only [SqsQueue.deleteAnswer, List.get?_cons_zero, Nat.add_zero] at hat
      have hd := deleteMessage_fail s m
        { w.emit (Event.handle m.Body) with user := h.Handle m.Body w.user } e
        (by simpa [World.emit, deletes] using hat)
      simp only [SqsQueue.pollLoop, hd]
      simp [World.emit, SqsQueue.dispatched, Handler.runAll]
    | succ k =>
      have h0 := hbefore 0 (by omega)
      simp only [SqsQueue.deleteAnswer, List.get?_cons_zero, Nat.add_zero] at h0
      have hd := deleteMessage_ok s m
        { w.emit (Event.handle m.Body) with user := h.Handle m.Body w.user }
        (by simpa [World.emit, deletes] using h0)
      simp only [SqsQueue.pollLoop, hd]
      have hw : (deletes (World.emit
          { w.emit (Event.handle m.Body) with user := h.Handle m.Body w.user }
          (Event.deleteMessage (s.deleteParams m) s.client)).trace).length
          = (deletes w.trace).length + 1 := by
        simp [World.emit, deletes]
      rw [ih k _ (by simpa using hk)
        (fun i hi => by rw [← deleteAnswer_succ s w _ hw]; exact hbefore (i + 1) (by omega))
        (by rw [← deleteAnswer_succ s w _ hw]; exact hat)]
      simp [World.emit, SqsQueue.dispatched, Handler.runAll]

theorem Printf_test {σ : Type} (l : CustomLogger) (v : List GoValue) (w : World σ) :
    l.Printf "test long poll %s" v w =
      w.emit (Event.logPrintf "test long poll %s" [GoValue.slice v]) := by
  have h1 : strings.Contains "test long poll %s" "Finished long polling" = false := by decide
  have h2 : strings.Contains "test long poll %s" "Long polling" = false := by decide
  simp [CustomLogger.Printf, h1, h2]

theorem Printf_start {σ : Type} (l : CustomLogger) (v : List GoValue) (w : World σ) :
    l.Printf "Long polling on %s\n" v w = w := by
  have h2 : strings.Contains "Long polling on %s\n" "Long polling" = true := by decide
  simp [CustomLogger.Printf, h2]

theorem Printf_finish {σ : Type} (l : CustomLogger) (v : List GoValue) (w : World σ) :
    l.Printf "Finished long polling after %d seconds" v w = w := by
  have h1 : strings.Contains "Finished long polling after %d seconds" "Finished long polling"
      = true := by decide
  simp [CustomLogger.Printf, h1]

/-- The two calls every poll with a handler starts with. -/
theorem Poll_unfold {σ : Type} (s : SqsQueue σ) (h : Handler σ) (w : World σ)
    (hh : s.handler = some h) :
    s.Poll w =
      (match checkErr (s.config.provider.receiveMessages s.receiveParams s.client).2 s.logger
          { trace := w.trace ++ [Event.logPrintf "test long poll %s" [GoValue.slice [GoValue.str "test"]],
              Event.receiveMessages s.receiveParams s.client]
            user := w.user } with
      | (Except.error e, w) => (Except.error e, w)
      | (Except.ok (), w) =>
        match (s.config.provider.receiveMessages s.receiveParams s.client).1 with
        | none =>
          (Except.error (Halt.panic "invalid memory address or nil pointer dereference"), w)
        | some result =>
          match s.pollLoop h result.Messages w with
          | (Except.error e, w) => (Except.error e, w)
          | (Except.ok (), w) => (Except.ok (), w)) := by
  simp only [SqsQueue.Poll, hh, Printf_test, Printf_start, Printf_finish, World.emit,
    SqsQueue.receiveParams, List.append_assoc, List.singleton_append]


theorem slice_ne_self (v : List GoValue) : [GoValue.slice v] ≠ v := by
  intro h
  have hs := congrArg sizeOf h
  simp at hs
  omega

theorem pollLoop_trace {σ : Type} (s : SqsQueue σ) (h : Handler σ) (msgs : List Message) :
    ∀ w : World σ, ∃ post, (s.pollLoop h msgs w).2.trace = w.trace ++ post ∧
      receives post = [] ∧ printfs post = [] := by
  induction msgs with
  | nil => intro w; exact ⟨[], by simp [SqsQueue.pollLoop], rfl, rfl⟩
  | cons m ms ih =>
    intro w
    cases hd : s.config.provider.deleteMessage
        (deletes (World.emit w (Event.handle m.Body)).trace).length (s.deleteParams m) s.client with
    | none =>
      have hd1 := deleteMessage_ok s m
        { w.emit (Event.handle m.Body) with user := h.Handle m.Body w.user } hd
      obtain ⟨post, hp, hr, hq⟩ := ih (World.emit
        { w.emit (Event.handle m.Body) with user := h.Handle m.Body w.user }
        (Event.deleteMessage (s.deleteParams m) s.client))
      refine ⟨Event.handle m.Body :: Event.deleteMessage (s.deleteParams m) s.client :: post,
        ?_, ?_, ?_⟩
      · simp only [SqsQueue.pollLoop, hd1, hp]
        simp [World.emit]
      · rw [← hr]; simp [receives]
      · rw [← hq]; simp [printfs]
    | some e =>
      have hd1 := deleteMessage_fail s m
        { w.emit (Event.handle m.Body) with user := h.Handle m.Body w.user } e hd
      refine ⟨[Event.handle m.Body, Event.deleteMessage (s.deleteParams m) s.client,
        Event.logFatal [GoValue.slice [GoValue.err e]]], ?_, ?_, ?_⟩
      · simp only [SqsQueue.pollLoop, hd1]
        simp [World.emit]
      · simp [receives]
      · simp [printfs]


theorem Poll_ok {σ : Type} (s : SqsQueue σ) (h : Handler σ) (w : World σ)
    (out : ReceiveMessageOutput) (hh : s.handler = some h)
    (hr : s.config.provider.receiveMessages s.receiveParams s.client = (some out, none))
    (hd : ∀ i, i < out.Messages.length → s.deleteAnswer w out.Messages i = none) :
    s.Poll w =
      (Except.ok (),
        { trace := w.trace ++
            [Event.logPrintf "test long poll %s" [GoValue.slice [GoValue.str "test"]],
              Event.receiveMessages s.receiveParams s.client] ++ s.dispatched out.Messages
          user := h.runAll out.Messages w.user }) := by
  rw [Poll_unfold s h w hh, hr]
  simp only [checkErr]
  rw [pollLoop_ok s h out.Messages _
    (fun i hi => by rw [deleteAnswer_congr s w _ (by simp [deletes])]; exact hd i hi)]

theorem Poll_delete_fail {σ : Type} (s : SqsQueue σ) (h : Handler σ) (w : World σ)
    (out : ReceiveMessageOutput) (k : Nat) (e : GoError) (hh : s.handler = some h)
    (hr : s.config.provider.receiveMessages s.receiveParams s.client = (some out, none))
    (hk : k < out.Messages.length)
    (hbefore : ∀ i, i < k → s.deleteAnswer w out.Messages i = none)
    (hat : s.deleteAnswer w out.Messages k = some e) :
    s.Poll w =
      (Except.error (Halt.exit 1),
        { trace := w.trace ++
            [Event.logPrintf "test long poll %s" [GoValue.slice [GoValue.str "test"]],
              Event.receiveMessages s.receiveParams s.client] ++
            s.dispatched (out.Messages.take (k + 1)) ++
            [Event.logFatal [GoValue.slice [GoValue.err e]]]
          user := h.runAll (out.Messages.take (k + 1)) w.user }) := by
  rw [Poll_unfold s h w hh, hr]
  simp only [checkErr]
  rw [pollLoop_fail s h e out.Messages k _ hk
    (fun i hi => by rw [deleteAnswer_congr s w _ (by simp [deletes])]; exact hbefore i hi)
    (by rw [deleteAnswer_congr s w _ (by simp [deletes])]; exact hat)]

/-! ## The claims -/

/-- C1, as stated, fails: in the scenario where receive returns the two
messages A, B and the first delete request fails, the poller has a handler and
the receive succeeds, yet the handler is invoked once and one delete request is
issued, not two of each. -/
theorem C1_first_delete_failure_stops_dispatch :
    firstDeleteFails.handler.isSome = true ∧
    firstDeleteFails.config.provider.receiveMessages firstDeleteFails.receiveParams
      firstDeleteFails.client = (some { Messages := scenarioBatch }, none) ∧
    scenarioBatch.length = 2 ∧
    handled (firstDeleteFails.Poll (World.start [])).2.trace = [some "A"] ∧
    handled (firstDeleteFails.Poll (World.start [])).2.trace ≠
      scenarioBatch.map (fun m => m.Body) ∧
    deletes (firstDeleteFails.Poll (World.start [])).2.trace =
      [{ QueueUrl := "q1", ReceiptHandle := some "r1" }] ∧
    (deletes (firstDeleteFails.Poll (World.start [])).2.trace).length ≠ scenarioBatch.length ∧
    (firstDeleteFails.Poll (World.start [])).1 = Except.error (Halt.exit 1) :=
  ⟨by decide, by decide, by decide, by decide, by decide, by decide, by decide, rfl⟩

/-- C1, amended: for every poller with a registered handler and every
successful receive result of N messages whose delete requests all succeed, Poll
returns normally, invokes the handler exactly N times with the bodies in the
order received, and issues exactly N delete requests, the i-th carrying the
i-th receipt handle and the configured QueueURL; for N = 0 neither is invoked. -/
theorem Poll_handles_and_deletes_every_message {σ : Type} (s : SqsQueue σ) (h : Handler σ)
    (w : World σ) (out : ReceiveMessageOutput) (hh : s.handler = some h)
    (hr : s.config.provider.receiveMessages
      { QueueUrl := s.config.QueueURL
        WaitTimeSeconds := s.config.WaitTimeSeconds
        VisibilityTimeout := s.config.VisibilityTimeout
        MaxNumberOfMessages := s.config.MaxNumberOfMessages } s.client = (some out, none))
    (hd : ∀ i, i < out.Messages.length → s.deleteAnswer w out.Messages i = none) :
    (s.Poll w).1 = Except.ok () ∧
    handled (s.Poll w).2.trace = handled w.trace ++ out.Messages.map (fun m => m.Body) ∧
    deletes (s.Poll w).2.trace = deletes w.trace ++ out.Messages.map
      (fun m => { QueueUrl := s.config.QueueURL, ReceiptHandle := m.ReceiptHandle }) ∧
    (handled (s.Poll w).2.trace).length = (handled w.trace).length + out.Messages.length ∧
    (deletes (s.Poll w).2.trace).length = (deletes w.trace).length + out.Messages.length ∧
    (out.Messages = [] →
      handled (s.Poll w).2.trace = handled w.trace ∧
      deletes (s.Poll w).2.trace = deletes w.trace) := by
  have hP := Poll_ok s h w out hh hr hd
  have hH : handled (s.Poll w).2.trace = handled w.trace ++ out.Messages.map (fun m => m.Body) := by
    rw [hP]; simp only [handled_append, handled_dispatched]; simp [handled]
  have hD : deletes (s.Poll w).2.trace = deletes w.trace ++ out.Messages.map
      (fun m => { QueueUrl := s.config.QueueURL, ReceiptHandle := m.ReceiptHandle }) := by
    rw [hP]; simp only [deletes_append, deletes_dispatched]; simp [deletes, SqsQueue.deleteParams]
  refine ⟨by rw [hP], hH, hD, by rw [hH]; simp, by rw [hD]; simp, ?_⟩
  intro hn
  rw [hH, hD, hn]
  simp

/-- The end-to-end scenario as an instance of the amended C1: handler invoked
with A then B, delete issued with r1 then r2, each scoped to q1. -/
theorem Poll_handles_and_deletes_every_message_witness :
    (happyQueue.Poll (World.start [])).1 = Except.ok () ∧
    handled (happyQueue.Poll (World.start [])).2.trace = [some "A", some "B"] ∧
    deletes (happyQueue.Poll (World.start [])).2.trace =
      [{ QueueUrl := "q1", ReceiptHandle := some "r1" },
       { QueueUrl := "q1", ReceiptHandle := some "r2" }] :=
  have t := Poll_handles_and_deletes_every_message happyQueue recorder (World.start [])
    { Messages := scenarioBatch } rfl rfl (by decide)
  ⟨t.1, t.2.1, t.2.2.1⟩


/-- C2, evaluated on the code: for every format string that contains neither
phrase and every argument list, Printf makes exactly one call to the wrapped
logger with the same format, but the argument list that call receives is the
one-element list holding the slice of the arguments, which is never the
argument list itself. -/
theorem Printf_forwards_arguments_as_one_slice {σ : Type} (l : CustomLogger) (format : String)
    (args : List GoValue) (w : World σ)
    (h1 : ¬ "Long polling".data <:+: format.data)
    (h2 : ¬ "Finished long polling".data <:+: format.data) :
    (l.Printf format args w).trace = w.trace ++ [Event.logPrintf format [GoValue.slice args]] ∧
    printfs (l.Printf format args w).trace = printfs w.trace ++ [(format, [GoValue.slice args])] ∧
    [GoValue.slice args] ≠ args := by
  have c1 : strings.Contains format "Long polling" = false := by
    rw [← Bool.not_eq_true, contains_iff]; exact h1
  have c2 : strings.Contains format "Finished long polling" = false := by
    rw [← Bool.not_eq_true, contains_iff]; exact h2
  have ht : (l.Printf format args w).trace =
      w.trace ++ [Event.logPrintf format [GoValue.slice args]] := by
    simp [CustomLogger.Printf, c1, c2, World.emit]
  refine ⟨ht, ?_, slice_ne_self args⟩
  rw [ht]
  simp [printfs]

/-- The call Poll itself makes, `Printf("test long poll %s", "test")`, as an
instance of C2 on the code: the wrapped logger receives one argument, the slice
holding the string, where the caller passed the string. -/
theorem Printf_forwards_arguments_as_one_slice_witness :
    (¬ "Long polling".data <:+: "test long poll %s".data) ∧
    (¬ "Finished long polling".data <:+: "test long poll %s".data) ∧
    printfs (CustomLogger.Printf { logger := { id := 0 } } "test long poll %s"
      [GoValue.str "test"] (World.start ())).trace =
      printfs (World.start ()).trace ++
        [("test long poll %s", [GoValue.slice [GoValue.str "test"]])] ∧
    [GoValue.slice [GoValue.str "test"]] ≠ [GoValue.str "test"] :=
  have n1 : ¬ "Long polling".data <:+: "test long poll %s".data := by
    rw [← hasInfix_iff]; decide
  have n2 : ¬ "Finished long polling".data <:+: "test long poll %s".data := by
    rw [← hasInfix_iff]; decide
  have t := Printf_forwards_arguments_as_one_slice { logger := { id := 0 } }
    "test long poll %s" [GoValue.str "test"] (World.start ()) n1 n2
  ⟨n1, n2, t.2.1, t.2.2⟩

/-- C3: for every format string and argument list, Printf makes no call to the
wrapped logger if and only if the format contains, as a case-sensitive
substring, "Long polling" or "Finished long polling", and otherwise makes
exactly one call; in particular a format that contains the lower-case "long
polling" but neither of the two phrases is not suppressed. -/
theorem Printf_silent_iff_polling_phrase {σ : Type} (l : CustomLogger) (format : String)
    (args : List GoValue) (w : World σ) :
    ((l.Printf format args w).trace = w.trace ↔
      ("Long polling".data <:+: format.data ∨ "Finished long polling".data <:+: format.data)) ∧
    ((l.Printf format args w).trace ≠ w.trace →
      ∃ a, (l.Printf format args w).trace = w.trace ++ [Event.logPrintf format a]) ∧
    ("long polling".data <:+: format.data →
      ¬ "Long polling".data <:+: format.data →
      ¬ "Finished long polling".data <:+: format.data →
      (l.Printf format args w).trace ≠ w.trace) := by
  have key : (l.Printf format args w).trace = w.trace ↔
      ("Long polling".data <:+: format.data ∨ "Finished long polling".data <:+: format.data) := by
    rw [← contains_iff, ← contains_iff]
    cases c1 : strings.Contains format "Long polling" <;>
      cases c2 : strings.Contains format "Finished long polling" <;>
      simp [CustomLogger.Printf, c1, c2, World.emit]
  refine ⟨key, ?_, ?_⟩
  · intro hne
    refine ⟨[GoValue.slice args], ?_⟩
    have hn : ¬ ("Long polling".data <:+: format.data ∨
        "Finished long polling".data <:+: format.data) := fun hc => hne (key.mpr hc)
    rw [← contains_iff, ← contains_iff] at hn
    simp only [not_or, Bool.not_eq_true] at hn
    simp [CustomLogger.Printf, hn.1, hn.2, World.emit]
  · intro _ n1 n2 hq
    rcases key.mp hq with hc | hc
    · exact n1 hc
    · exact n2 hc

/-- An instance of C3: the lower-case format "long polling on %s" is passed to
the wrapped logger, while "Long polling on %s" is not. -/
theorem Printf_silent_iff_polling_phrase_witness :
    (CustomLogger.Printf { logger := { id := 0 } } "long polling on %s" [GoValue.str "q1"]
      (World.start ())).trace ≠ (World.start ()).trace ∧
    (CustomLogger.Printf { logger := { id := 0 } } "Long polling on %s" [GoValue.str "q1"]
      (World.start ())).trace = (World.start ()).trace :=
  ⟨(Printf_silent_iff_polling_phrase { logger := { id := 0 } } "long polling on %s"
      [GoValue.str "q1"] (World.start ())).2.2
      (by rw [← hasInfix_iff]; decide) (by rw [← hasInfix_iff]; decide)
      (by rw [← hasInfix_iff]; decide),
   (Printf_silent_iff_polling_phrase { logger := { id := 0 } } "Long polling on %s"
      [GoValue.str "q1"] (World.start ())).1.mpr
      (Or.inl (by rw [← hasInfix_iff]; decide))⟩

/-- C4: for every poller whose handler is nil, Poll panics at once: the world
is returned unchanged, so no receive request, no delete request and no logger
call was made, whatever the configuration and the provider. -/
theorem Poll_without_handler_panics {σ : Type} (s : SqsQueue σ) (w : World σ)
    (hh : s.handler = none) :
    s.Poll w = (Except.error (Halt.panic "A message handler needs to be registered first!"), w) ∧
    (s.Poll w).2.trace = w.trace := by
  simp [SqsQueue.Poll, hh]

/-- An instance of C4: the scenario poller without a handler leaves the trace
empty. -/
theorem Poll_without_handler_panics_witness :
    noHandler.handler = none ∧
    noHandler.Poll (World.start []) =
      (Except.error (Halt.panic "A message handler needs to be registered first!"),
        World.start []) ∧
    (noHandler.Poll (World.start [])).2.trace = [] :=
  ⟨rfl, Poll_without_handler_panics noHandler (World.start []) rfl⟩

/-- C5: for every configuration, getSession makes exactly one session request:
the static-credentials one, with the configured Region, AccessKeyID and
SecretKey, if and only if both AccessKeyID and SecretKey are non-empty, and the
ambient-chain one, with the configured Region, when either is empty. -/
theorem getSession_selects_exactly_one_path {σ : Type} (c : Configuration) (l : CustomLogger)
    (w : World σ) :
    (sessions (getSession c l w).2.trace = sessions w.trace ++
        [(c.Region, some (c.AccessKeyID, c.SecretKey))] ↔
      (c.AccessKeyID ≠ "" ∧ c.SecretKey ≠ "")) ∧
    (sessions (getSession c l w).2.trace = sessions w.trace ++ [(c.Region, none)] ↔
      (c.AccessKeyID = "" ∨ c.SecretKey = "")) ∧
    (sessions (getSession c l w).2.trace).length = (sessions w.trace).length + 1 := by
  have key : sessions (getSession c l w).2.trace = sessions w.trace ++
      [(c.Region, if c.AccessKeyID ≠ "" ∧ c.SecretKey ≠ "" then
        some (c.AccessKeyID, c.SecretKey) else none)] := by
    by_cases hc : c.AccessKeyID ≠ "" ∧ c.SecretKey ≠ ""
    · simp only [getSession, if_pos hc]
      cases c.provider.getSessionWithCredentials c.Region c.AccessKeyID c.SecretKey with
      | mk sess err =>
        cases err <;> simp [checkErr, CustomLogger.Fatal, World.emit, sessions]
    · simp only [getSession, if_neg hc]
      cases c.provider.getSession c.Region with
      | mk sess err =>
        cases err <;> simp [checkErr, CustomLogger.Fatal, World.emit, sessions]
  rw [key]
  by_cases hc : c.AccessKeyID ≠ "" ∧ c.SecretKey ≠ ""
  · have hn : ¬ (c.AccessKeyID = "" ∨ c.SecretKey = "") := by tauto
    simp [hc, hn]
  · have hn : c.AccessKeyID = "" ∨ c.SecretKey = "" := by tauto
    simp [hc, hn]


/-- Two instances of C5: with both keys set the static-credentials request is
made, with the secret key empty the ambient-chain request is made. -/
theorem getSession_selects_exactly_one_path_witness :
    sessions (getSession (scenarioConfig "id" "secret" (scenarioProvider (none, none) []))
      { logger := { id := 0 } } (World.start ())).2.trace =
      sessions (World.start ()).trace ++ [("eu-west-1", some ("id", "secret"))] ∧
    sessions (getSession (scenarioConfig "id" "" (scenarioProvider (none, none) []))
      { logger := { id := 0 } } (World.start ())).2.trace =
      sessions (World.start ()).trace ++ [("eu-west-1", none)] :=
  ⟨(getSession_selects_exactly_one_path
      (scenarioConfig "id" "secret" (scenarioProvider (none, none) []))
      { logger := { id := 0 } } (World.start ())).1.mpr (by decide),
   (getSession_selects_exactly_one_path
      (scenarioConfig "id" "" (scenarioProvider (none, none) []))
      { logger := { id := 0 } } (World.start ())).2.1.mpr (by decide)⟩

/-- C6: for every poller with a registered handler, whatever the provider
answers, Poll issues exactly one receive request, no handler call and no delete
request precedes it, and its QueueUrl, WaitTimeSeconds, VisibilityTimeout and
MaxNumberOfMessages are the configured QueueURL, WaitTimeSeconds,
VisibilityTimeout and MaxNumberOfMessages. -/
theorem Poll_issues_one_receive_first {σ : Type} (s : SqsQueue σ) (h : Handler σ)
    (w : World σ) (hh : s.handler = some h) :
    receives (s.Poll w).2.trace = receives w.trace ++
      [{ QueueUrl := s.config.QueueURL
         WaitTimeSeconds := s.config.WaitTimeSeconds
         VisibilityTimeout := s.config.VisibilityTimeout
         MaxNumberOfMessages := s.config.MaxNumberOfMessages }] ∧
    ∃ pre post, (s.Poll w).2.trace = w.trace ++ pre ++
        Event.receiveMessages
          { QueueUrl := s.config.QueueURL
            WaitTimeSeconds := s.config.WaitTimeSeconds
            VisibilityTimeout := s.config.VisibilityTimeout
            MaxNumberOfMessages := s.config.MaxNumberOfMessages } s.client :: post ∧
      handled pre = [] ∧ deletes pre = [] ∧ receives pre = [] ∧ receives post = [] := by
  have main : ∃ post, (s.Poll w).2.trace = w.trace ++
      [Event.logPrintf "test long poll %s" [GoValue.slice [GoValue.str "test"]]] ++
      Event.receiveMessages s.receiveParams s.client :: post ∧ receives post = [] := by
    rw [Poll_unfold s h w hh]
    cases s.config.provider.receiveMessages s.receiveParams s.client with
    | mk result err =>
      cases err with
      | some e =>
        exact ⟨[Event.logFatal [GoValue.slice [GoValue.err e]]],
          by simp [checkErr, CustomLogger.Fatal, World.emit], by simp [receives]⟩
      | none =>
        cases result with
        | none => exact ⟨[], by simp [checkErr], rfl⟩
        | some out =>
          simp only [checkErr]
          obtain ⟨post, hp, hr, _⟩ := pollLoop_trace s h out.Messages
            { trace := w.trace ++
                [Event.logPrintf "test long poll %s" [GoValue.slice [GoValue.str "test"]],
                  Event.receiveMessages s.receiveParams s.client]
              user := w.user }
          refine ⟨post, ?_, hr⟩
          have e1 : ∀ r : Except Halt Unit × World σ,
              (match r with
                | (Except.error e, w) => (Except.error e, w)
                | (Except.ok (), w) => (Except.ok (), w)) = r := by
            intro r
            rcases r with ⟨_ | _, _⟩ <;> rfl
          rw [e1, hp]
          simp
  obtain ⟨post, hp, hr⟩ := main
  refine ⟨?_, [Event.logPrintf "test long poll %s" [GoValue.slice [GoValue.str "test"]]],
    post, hp, by simp [handled], by simp [deletes], by simp [receives], hr⟩
  rw [hp]
  simp only [receives_append]
  have hc : receives (Event.receiveMessages s.receiveParams s.client :: post) =
      s.receiveParams :: receives post := by simp [receives]
  rw [hc, hr]
  simp [receives, SqsQueue.receiveParams]

/-- Three instances of C6: one receive request with the scenario's parameters
when the cycle succeeds, when receive fails and when a delete fails. -/
theorem Poll_issues_one_receive_first_witness :
    receives (happyQueue.Poll (World.start [])).2.trace =
      [{ QueueUrl := "q1", WaitTimeSeconds := 10, VisibilityTimeout := 0,
         MaxNumberOfMessages := 2 }] ∧
    receives (receiveFails.Poll (World.start [])).2.trace =
      [{ QueueUrl := "q1", WaitTimeSeconds := 10, VisibilityTimeout := 0,
         MaxNumberOfMessages := 2 }] ∧
    receives (firstDeleteFails.Poll (World.start [])).2.trace =
      [{ QueueUrl := "q1", WaitTimeSeconds := 10, VisibilityTimeout := 0,
         MaxNumberOfMessages := 2 }] :=
  ⟨(Poll_issues_one_receive_first happyQueue recorder (World.start []) rfl).1,
   (Poll_issues_one_receive_first receiveFails recorder (World.start []) rfl).1,
   (Poll_issues_one_receive_first firstDeleteFails recorder (World.start []) rfl).1⟩

/-- C7: for every poller with a registered handler, if the receive call returns
an error then Poll hands that error to the logger's Fatal, which ends the
process, and neither the handler nor delete is invoked for any message. -/
theorem Poll_receive_error_is_fatal {σ : Type} (s : SqsQueue σ) (h : Handler σ)
    (w : World σ) (e : GoError) (hh : s.handler = some h)
    (hr : (s.config.provider.receiveMessages
      { QueueUrl := s.config.QueueURL
        WaitTimeSeconds := s.config.WaitTimeSeconds
        VisibilityTimeout := s.config.VisibilityTimeout
        MaxNumberOfMessages := s.config.MaxNumberOfMessages } s.client).2 = some e) :
    (s.Poll w).1 = Except.error (Halt.exit 1) ∧
    fatals (s.Poll w).2.trace = fatals w.trace ++ [[GoValue.slice [GoValue.err e]]] ∧
    (∃ pre, (s.Poll w).2.trace = pre ++ [Event.logFatal [GoValue.slice [GoValue.err e]]]) ∧
    handled (s.Poll w).2.trace = handled w.trace ∧
    deletes (s.Poll w).2.trace = deletes w.trace ∧
    (s.Poll w).2.user = w.user := by
  have hP : s.Poll w = (Except.error (Halt.exit 1),
      { trace := w.trace ++
          [Event.logPrintf "test long poll %s" [GoValue.slice [GoValue.str "test"]],
            Event.receiveMessages s.receiveParams s.client,
            Event.logFatal [GoValue.slice [GoValue.err e]]]
        user := w.user }) := by
    rw [Poll_unfold s h w hh]
    have hr2 : (s.config.provider.receiveMessages s.receiveParams s.client).2 = some e := hr
    rw [hr2]
    simp [checkErr, CustomLogger.Fatal, World.emit]
  rw [hP]
  refine ⟨rfl, by simp [fatals], ⟨w.trace ++
    [Event.logPrintf "test long poll %s" [GoValue.slice [GoValue.str "test"]],
      Event.receiveMessages s.receiveParams s.client], by simp⟩,
    by simp [handled], by simp [deletes], rfl⟩

/-- An instance of C7: in the scenario where receive fails, the process exits
through Fatal with no handler call and no delete request. -/
theorem Poll_receive_error_is_fatal_witness :
    (receiveFails.Poll (World.start [])).1 = Except.error (Halt.exit 1) ∧
    fatals (receiveFails.Poll (World.start [])).2.trace =
      [[GoValue.slice [GoValue.err { msg := "receive failed" }]]] ∧
    handled (receiveFails.Poll (World.start [])).2.trace = [] ∧
    deletes (receiveFails.Poll (World.start [])).2.trace = [] :=
  have t := Poll_receive_error_is_fatal receiveFails recorder (World.start [])
    { msg := "receive failed" } rfl rfl
  ⟨t.1, t.2.1, t.2.2.2.1, t.2.2.2.2.1⟩


/-- C8: for every successful receive result of N messages and every index
k < N, if the delete request for message k is the first to fail, then Poll ends
the process through Fatal at that point: the handler has been invoked for
exactly messages 0..k, delete has been issued for exactly messages 0..k, the
Fatal call is the last call made, and nothing is invoked for a later message. -/
theorem Poll_first_failed_delete_is_fatal {σ : Type} (s : SqsQueue σ) (h : Handler σ)
    (w : World σ) (out : ReceiveMessageOutput) (k : Nat) (e : GoError)
    (hh : s.handler = some h)
    (hr : s.config.provider.receiveMessages
      { QueueUrl := s.config.QueueURL
        WaitTimeSeconds := s.config.WaitTimeSeconds
        VisibilityTimeout := s.config.VisibilityTimeout
        MaxNumberOfMessages := s.config.MaxNumberOfMessages } s.client = (some out, none))
    (hk : k < out.Messages.length)
    (hbefore : ∀ i, i < k → s.deleteAnswer w out.Messages i = none)
    (hat : s.deleteAnswer w out.Messages k = some e) :
    (s.Poll w).1 = Except.error (Halt.exit 1) ∧
    handled (s.Poll w).2.trace =
      handled w.trace ++ (out.Messages.take (k + 1)).map (fun m => m.Body) ∧
    deletes (s.Poll w).2.trace = deletes w.trace ++ (out.Messages.take (k + 1)).map
      (fun m => { QueueUrl := s.config.QueueURL, ReceiptHandle := m.ReceiptHandle }) ∧
    calls (s.Poll w).2.trace = calls w.trace ++ s.dispatched (out.Messages.take (k + 1)) ∧
    (∃ pre, (s.Poll w).2.trace = pre ++ [Event.logFatal [GoValue.slice [GoValue.err e]]]) ∧
    (s.Poll w).2.user = h.runAll (out.Messages.take (k + 1)) w.user := by
  rw [Poll_delete_fail s h w out k e hh hr hk hbefore hat]
  refine ⟨rfl, ?_, ?_, ?_, ⟨_, rfl⟩, rfl⟩
  · simp only [handled_append, handled_dispatched]; simp [handled]
  · simp only [deletes_append, deletes_dispatched]; simp [deletes]; rfl
  · simp only [calls_append, calls_dispatched]; simp [calls]

/-- An instance of C8: in the scenario where the second of two deletes fails,
the handler has seen A and B, delete was issued for r1 and r2, and the process
exits through Fatal. -/
theorem Poll_first_failed_delete_is_fatal_witness :
    (secondDeleteFails.Poll (World.start [])).1 = Except.error (Halt.exit 1) ∧
    handled (secondDeleteFails.Poll (World.start [])).2.trace = [some "A", some "B"] ∧
    deletes (secondDeleteFails.Poll (World.start [])).2.trace =
      [{ QueueUrl := "q1", ReceiptHandle := some "r1" },
       { QueueUrl := "q1", ReceiptHandle := some "r2" }] ∧
    (secondDeleteFails.Poll (World.start [])).2.user = [some "A", some "B"] :=
  have t := Poll_first_failed_delete_is_fatal secondDeleteFails recorder (World.start [])
    { Messages := scenarioBatch } 1 { msg := "delete failed" } rfl rfl (by decide)
    (by decide) (by decide)
  ⟨t.1, t.2.1, t.2.2.1, t.2.2.2.2.2⟩

/-- C9: for every handler and every successful receive result of N messages
with all deletes succeeding, the handler and delete calls made by Poll are
strictly interleaved, handle(body 0), delete(receipt 0), handle(body 1),
delete(receipt 1), and so on; the sequence is the same for every handler, and
the handler has run on every body, in order. -/
theorem Poll_interleaves_handle_and_delete {σ : Type} (s : SqsQueue σ) (h : Handler σ)
    (w : World σ) (out : ReceiveMessageOutput) (hh : s.handler = some h)
    (hr : s.config.provider.receiveMessages
      { QueueUrl := s.config.QueueURL
        WaitTimeSeconds := s.config.WaitTimeSeconds
        VisibilityTimeout := s.config.VisibilityTimeout
        MaxNumberOfMessages := s.config.MaxNumberOfMessages } s.client = (some out, none))
    (hd : ∀ i, i < out.Messages.length → s.deleteAnswer w out.Messages i = none) :
    calls (s.Poll w).2.trace = calls w.trace ++ s.dispatched out.Messages ∧
    (s.Poll w).2.user = out.Messages.foldl (fun u m => h.Handle m.Body u) w.user := by
  rw [Poll_ok s h w out hh hr hd]
  refine ⟨?_, rfl⟩
  simp only [calls_append, calls_dispatched]; simp [calls]

/-- The end-to-end scenario as an instance of C9: handle A, delete r1, handle
B, delete r2. -/
theorem Poll_interleaves_handle_and_delete_witness :
    calls (happyQueue.Poll (World.start [])).2.trace =
      [Event.handle (some "A"),
       Event.deleteMessage { QueueUrl := "q1", ReceiptHandle := some "r1" } { id := 7 },
       Event.handle (some "B"),
       Event.deleteMessage { QueueUrl := "q1", ReceiptHandle := some "r2" } { id := 7 }] ∧
    (happyQueue.Poll (World.start [])).2.user = [some "A", some "B"] :=
  Poll_interleaves_handle_and_delete happyQueue recorder (World.start [])
    { Messages := scenarioBatch } rfl rfl (by decide)

/-- C10: for every poller with a registered handler and every successful poll
cycle, exactly one call reaches Printf of the wrapped logger, with the format
"test long poll %s", and it is made before the receive request; the notices
"Long polling on %s\n" and "Finished long polling after %d seconds" never reach
the wrapped logger. -/
theorem Poll_logs_only_the_test_line {σ : Type} (s : SqsQueue σ) (h : Handler σ)
    (w : World σ) (out : ReceiveMessageOutput) (hh : s.handler = some h)
    (hr : s.config.provider.receiveMessages
      { QueueUrl := s.config.QueueURL
        WaitTimeSeconds := s.config.WaitTimeSeconds
        VisibilityTimeout := s.config.VisibilityTimeout
        MaxNumberOfMessages := s.config.MaxNumberOfMessages } s.client = (some out, none))
    (hd : ∀ i, i < out.Messages.length → s.deleteAnswer w out.Messages i = none) :
    (s.Poll w).1 = Except.ok () ∧
    printfs (s.Poll w).2.trace = printfs w.trace ++
      [("test long poll %s", [GoValue.slice [GoValue.str "test"]])] ∧
    (∃ post, (s.Poll w).2.trace = w.trace ++
        Event.logPrintf "test long poll %s" [GoValue.slice [GoValue.str "test"]] ::
        Event.receiveMessages
          { QueueUrl := s.config.QueueURL
            WaitTimeSeconds := s.config.WaitTimeSeconds
            VisibilityTimeout := s.config.VisibilityTimeout
            MaxNumberOfMessages := s.config.MaxNumberOfMessages } s.client :: post ∧
      printfs post = [] ∧ receives post = []) ∧
    (∀ (v : List GoValue) (w0 : World σ), s.logger.Printf "Long polling on %s\n" v w0 = w0) ∧
    (∀ (v : List GoValue) (w0 : World σ),
      s.logger.Printf "Finished long polling after %d seconds" v w0 = w0) := by
  rw [Poll_ok s h w out hh hr hd]
  refine ⟨rfl, ?_, ⟨s.dispatched out.Messages, ?_, printfs_dispatched s _,
    receives_dispatched s _⟩, fun v w0 => Printf_start _ v w0, fun v w0 => Printf_finish _ v w0⟩
  · simp only [printfs_append, printfs_dispatched]; simp [printfs]
  · simp [SqsQueue.receiveParams]

/-- The end-to-end scenario as an instance of C10: the only line that reaches
the wrapped logger is the test line. -/
theorem Poll_logs_only_the_test_line_witness :
    (happyQueue.Poll (World.start [])).1 = Except.ok () ∧
    printfs (happyQueue.Poll (World.start [])).2.trace =
      printfs (World.start ([] : List (Option String))).trace ++
        [("test long poll %s", [GoValue.slice [GoValue.str "test"]])] :=
  have t := Poll_logs_only_the_test_line happyQueue recorder (World.start [])
    { Messages := scenarioBatch } rfl rfl (by decide)
  ⟨t.1, t.2.1⟩

end Goller
